import Mathlib

/-!
Verification development for the covid19_analysis repository.

The development shallowly embeds the data layer of the repository
(`covid_doc.py`: classes `CDataTimeSeries` and `CDataTimeSeriesCollection`,
together with the older variant of `CDataTimeSeries` in `analyse_data.py`)
and proves the behavioural claims about it.

Modelling conventions:
* Calendar dates (`datetime` objects that the code only ever compares,
  shifts by whole days, and formats) are modelled as integers counting
  days; `date - timedelta(days=w)` becomes integer subtraction.
* CSV lines are modelled after the `d.split(",")` stage: a row carries the
  sub-region field, the country field and the already-parsed integer
  counts (`int(n_str)`); the latitude/longitude assignments of
  `__parse_csv_data` are elided because no claim mentions them.
* Real-data counts are integers (`int(...)` in the source); the synthetic
  simulator works with real numbers, standing for the exact values of the
  float computation.  `np.log` / `np.exp` become `Real.log` / `Real.exp`.
* numpy arrays become lists; the elementwise mask assignment
  `x[x < 0] = 0` becomes a `map` with an `if v < 0 then 0 else v` body,
  and elementwise subtraction becomes `zipWith`.
* Python dictionaries keyed by date strings (`"%Y-%m-%d"`, an injective
  encoding of the date) are modelled as insertion-ordered association
  lists keyed by the date itself.
-/

/-- One data line of a CSSE csv file, after `d.split(",")`:
`[sub-region, country, latitude, longitude, count, count, ...]`.
Latitude/longitude are elided (no claim concerns them); the day counts are
kept as the integers produced by `int(n_str)`. -/
structure CsvRow where
  subRegion : String
  country : String
  counts : List ℤ
deriving DecidableEq, Repr

/-- One CSSE csv file: the dates parsed from the header row (columns 5
onward, by `__parse_csv_data_header_for_dates`) and the data rows. -/
structure CsvFile where
  headerDates : List ℤ
  rows : List CsvRow
deriving DecidableEq, Repr

/-- Embedding of `CDataTimeSeries.__parse_csv_data` (covid_doc.py:292-302,
identically analyse_data.py): scan the data rows in order, select the
first row whose country field equals the requested country and whose
sub-region field is empty, and return its counts; with no such row the
result is the empty list (`n_data` stays `[]`). -/
def parse_csv_data (country : String) (rows : List CsvRow) : List ℤ :=
  match rows.find? (fun r => decide (r.country = country ∧ r.subRegion = "")) with
  | some r => r.counts
  | none => []

/-- Embedding of the still-infected computation of covid_doc.py:119-120:
`n_still_infected = n_confirmed - n_deaths - n_recovered` followed by the
mask assignment `n_still_infected[n_still_infected < 0] = 0`.  Stated
polymorphically because the real-data path works on integers and the
simulated path on reals. -/
def still_infected_calc {α : Type} [LinearOrderedRing α]
    (conf dths recv : List α) : List α :=
  ((conf.zipWith (fun a b => a - b) dths).zipWith (fun a b => a - b) recv).map
    (fun v => if v < 0 then 0 else v)

/-- The state of a `CDataTimeSeries` object (covid_doc.py), real-data
path: the date axis and the four numeric series.  Counts are the parsed
integers. -/
structure CDataTimeSeries where
  country : String
  days : List ℤ
  n_confirmed : List ℤ
  n_deaths : List ℤ
  n_recovered : List ℤ
  n_still_infected : List ℤ
deriving DecidableEq, Repr

instance : Inhabited CDataTimeSeries := ⟨⟨"", [], [], [], [], []⟩⟩

/-- Embedding of `CDataTimeSeries.__init__` (covid_doc.py:70-120) on the
real-data path (`sim_data=False`): `days` is parsed from the header of the
confirmed file (the first file read fills `self.days`); the three numeric
series come from `__parse_csv_data` on the respective file; finally
`n_still_infected` is derived with the clamp of lines 119-120. -/
def mk_real_record (country : String) (cf df rf : CsvFile) : CDataTimeSeries :=
  let conf := parse_csv_data country cf.rows
  let dths := parse_csv_data country df.rows
  let recv := parse_csv_data country rf.rows
  { country := country
    days := cf.headerDates
    n_confirmed := conf
    n_deaths := dths
    n_recovered := recv
    n_still_infected := still_infected_calc conf dths recv }

/-- Embedding of the older `CDataTimeSeries.__init__` of analyse_data.py
(lines 61-75): identical construction, except that line 75 stores the raw
difference `n_confirmed - n_deaths - n_recovered` with no clamping of
negative values. -/
def mk_record_analyse (country : String) (cf df rf : CsvFile) : CDataTimeSeries :=
  let conf := parse_csv_data country cf.rows
  let dths := parse_csv_data country df.rows
  let recv := parse_csv_data country rf.rows
  { country := country
    days := cf.headerDates
    n_confirmed := conf
    n_deaths := dths
    n_recovered := recv
    n_still_infected := (conf.zipWith (fun a b => a - b) dths).zipWith (fun a b => a - b) recv }

/-- First index of the list holding an element that is `>= d`: the
embedding of `np.where(days >= date)[0][0]`, whose `IndexError` case is
the `none` result. -/
def first_index_geq (d : ℤ) : List ℤ → Option ℕ
  | [] => none
  | x :: xs => if d ≤ x then some 0 else (first_index_geq d xs).map (fun i => i + 1)

/-- Embedding of `CDataTimeSeries._get_time_range_indices`
(covid_doc.py:206-233).  A `none` bound maps to the boundary index; a
given bound maps to the first index whose date is `>= bound`, falling back
to the boundary (0, resp. `len(days)`) when `np.where` yields no index
(the source logs a warning there; logging is not modelled). -/
def get_time_range_indices (days : List ℤ) (start_date end_date : Option ℤ) : ℕ × ℕ :=
  let ix_start : ℕ :=
    match start_date with
    | none => 0
    | some sd =>
      match first_index_geq sd days with
      | some i => i
      | none => 0
  let ix_end : ℕ :=
    match end_date with
    | none => days.length
    | some ed =>
      match first_index_geq ed days with
      | some i => i
      | none => days.length
  (ix_start, ix_end)

/-- The default-date resolution at the top of
`CDataTimeSeries._calc_doubling_time_on_date` (covid_doc.py:134-135):
`if date == None: date = self.days[-1]`.  (With empty `days` the source
would raise; the junk value 0 marks that unreachable case.) -/
def resolve_date (rec : CDataTimeSeries) (date : Option ℤ) : ℤ :=
  match date with
  | some d => d
  | none => rec.days.getLastD 0

/-- The daily increase rate computed by
`CDataTimeSeries._calc_doubling_time_on_date` (covid_doc.py:136-141):
indices come from `_get_time_range_indices` with
`start_date = date - timedelta(days=w)` and `end_date = date`, then
`nc2 = n_confirmed[ixe]`, `nc1 = n_confirmed[ixs]` and
`rate = 1 + (nc2 / nc1 - 1) / w`.  List reads are modelled with `getD`
(out-of-range reads, a Python `IndexError`, yield the junk value 0; the
in-bounds claims delimit when that case is unreachable).  The division is
exact rational division; `nc1 = 0`, where the float code produces
inf or NaN, gives the junk value 0 of rational division. -/
def daily_increase_rate (rec : CDataTimeSeries) (date : Option ℤ)
    (average_interval_days : ℕ) : ℚ :=
  let d := resolve_date rec date
  let ix := get_time_range_indices rec.days (some (d - average_interval_days)) (some d)
  let nc2 : ℚ := (rec.n_confirmed.getD ix.2 0 : ℤ)
  let nc1 : ℚ := (rec.n_confirmed.getD ix.1 0 : ℤ)
  1 + (nc2 / nc1 - 1) / (average_interval_days : ℚ)

/-- Embedding of `CDataTimeSeries._calc_doubling_time_on_date`
(covid_doc.py:122-142): `np.log(2) / np.log(daily_increase_rate)`. -/
noncomputable def calc_doubling_time_on_date (rec : CDataTimeSeries)
    (date : Option ℤ) (average_interval_days : ℕ) : ℝ :=
  Real.log 2 / Real.log ((daily_increase_rate rec date average_interval_days : ℚ) : ℝ)

/-- The dates for which the float computation of
`_calc_doubling_time_on_date` returns an infinite, NaN or zero doubling
time, expressed over the exact rationals: `nc1 = 0` (float division by
zero: the rate is infinite or NaN, the doubling time 0 or NaN),
`rate <= 0` (`np.log` is NaN at negatives, `-inf` at 0, the doubling time
NaN or `-0.0`), or `rate = 1` (`np.log` is 0, the doubling time
infinite).  This is the exact-value reading of the float test
`np.isinf(double_t) or np.isnan(double_t) or double_t == 0`
(covid_doc.py:199). -/
def doubling_time_degenerate (rec : CDataTimeSeries) (date : Option ℤ)
    (average_interval_days : ℕ) : Prop :=
  let d := resolve_date rec date
  let ix := get_time_range_indices rec.days (some (d - average_interval_days)) (some d)
  rec.n_confirmed.getD ix.1 0 = 0
    ∨ daily_increase_rate rec date average_interval_days ≤ 0
    ∨ daily_increase_rate rec date average_interval_days = 1

instance (rec : CDataTimeSeries) (date : Option ℤ) (w : ℕ) :
    Decidable (doubling_time_degenerate rec date w) := by
  unfold doubling_time_degenerate; infer_instance

/-- Embedding of `CDataTimeSeries._get_doubling_time_dict_over_interval`
(covid_doc.py:173-204): resolve the index range, walk
`days[ixs:ixe]`, skip every date whose doubling time is infinite, NaN or
zero, and key the remaining values by the date (the `"%Y-%m-%d"` key
string encodes the date injectively). -/
noncomputable def get_doubling_time_dict_over_interval (rec : CDataTimeSeries)
    (start_date end_date : Option ℤ) (average_interval_days : ℕ) : List (ℤ × ℝ) :=
  let ix := get_time_range_indices rec.days start_date end_date
  ((rec.days.drop ix.1).take (ix.2 - ix.1)).filterMap (fun day =>
    if doubling_time_degenerate rec (some day) average_interval_days then none
    else some (day, calc_doubling_time_on_date rec (some day) average_interval_days))

/-- Embedding of the static method
`CDataTimeSeries._doubling_time_to_infrate` (covid_doc.py:276-278):
`np.exp(np.log(2) / doubling_time)`. -/
noncomputable def doubling_time_to_infrate (doubling_time : ℚ) : ℝ :=
  Real.exp (Real.log 2 / (doubling_time : ℝ))

/-- Embedding of `CDataTimeSeries.__get_doubling_time_from_dict`
(covid_doc.py:262-270).  The schedule dictionary is an insertion-ordered
association list from date to doubling time.  The source walks the keys
in order and returns the value of the first key `>= day`; when every key
is `< day` it returns the value of the last key.  (On the empty schedule
the source raises `IndexError`; the junk value 0 of `getLastD` marks that
case.) -/
def get_doubling_time_from_dict (sched : List (ℤ × ℚ)) (day : ℤ) : ℚ :=
  match sched.find? (fun p => decide (day ≤ p.1)) with
  | some p => p.2
  | none => (sched.getLastD (0, 0)).2

/-- numpy rounding to the nearest integer, halves to the even neighbour:
the exact semantics of `int(np.round(x))` on the rationals
(`np.round` returns an integral float, `int` converts it exactly). -/
def np_round (q : ℚ) : ℤ :=
  if q - ⌊q⌋ < 1 / 2 then ⌊q⌋
  else if 1 / 2 < q - ⌊q⌋ then ⌊q⌋ + 1
  else if ⌊q⌋ % 2 = 0 then ⌊q⌋ else ⌊q⌋ + 1

/-- Embedding of the confirmed-cases recurrence of
`CDataTimeSeries.__sim_data` (covid_doc.py:242-252), as the function
giving the final content of cell `t` of `n_confirmed`: cell 0 is seeded
with 1, and the loop body sets
`n_confirmed[day] = n_confirmed[day-1] * inf_rate` with the rate obtained
from the schedule at `self.days[day]`.  (The loop writes each cell once,
in index order, so the array content is exactly this recurrence for
`t < len(days)`.) -/
noncomputable def sim_confirmed (sched : List (ℤ × ℚ)) (days : List ℤ) : ℕ → ℝ
  | 0 => 1
  | t + 1 =>
    sim_confirmed sched days t
      * doubling_time_to_infrate (get_doubling_time_from_dict sched (days.getD (t + 1) 0))

/-- Embedding of the deaths assignment of `CDataTimeSeries.__sim_data`
(covid_doc.py:253-257): cells stay 0 except when `day >= 1` (the loop
range) and `day >= sim_days_to_recovery` (the unrounded float threshold),
where `n_deaths[day] = n_confirmed[day - int(np.round(sim_days_to_recovery))]
* sim_mortality`.  The index subtraction is natural-number subtraction,
which agrees with the source whenever `days_to_recovery >= 0` (then the
rounded offset never exceeds `day`). -/
noncomputable def sim_deaths (sched : List (ℤ × ℚ)) (days : List ℤ)
    (mortality : ℝ) (days_to_recovery : ℚ) (t : ℕ) : ℝ :=
  if 1 ≤ t ∧ days_to_recovery ≤ (t : ℚ) then
    sim_confirmed sched days (t - (np_round days_to_recovery).toNat) * mortality
  else 0

/-- Embedding of the recovered assignment of `CDataTimeSeries.__sim_data`
(covid_doc.py:258-260), the same shape as the deaths assignment with the
factor `1 - sim_mortality`. -/
noncomputable def sim_recovered (sched : List (ℤ × ℚ)) (days : List ℤ)
    (mortality : ℝ) (days_to_recovery : ℚ) (t : ℕ) : ℝ :=
  if 1 ≤ t ∧ days_to_recovery ≤ (t : ℚ) then
    sim_confirmed sched days (t - (np_round days_to_recovery).toNat) * (1 - mortality)
  else 0

/-- The `n_confirmed` array produced by `__sim_data`, as a list: length
`len(days)`, cell `t` holding `sim_confirmed t`. -/
noncomputable def sim_confirmed_list (sched : List (ℤ × ℚ)) (days : List ℤ) : List ℝ :=
  (List.range days.length).map (sim_confirmed sched days)

/-- The `n_deaths` array produced by `__sim_data`, as a list. -/
noncomputable def sim_deaths_list (sched : List (ℤ × ℚ)) (days : List ℤ)
    (mortality : ℝ) (days_to_recovery : ℚ) : List ℝ :=
  (List.range days.length).map (sim_deaths sched days mortality days_to_recovery)

/-- The `n_recovered` array produced by `__sim_data`, as a list. -/
noncomputable def sim_recovered_list (sched : List (ℤ × ℚ)) (days : List ℤ)
    (mortality : ℝ) (days_to_recovery : ℚ) : List ℝ :=
  (List.range days.length).map (sim_recovered sched days mortality days_to_recovery)

/-- The `n_still_infected` array of a simulated record: covid_doc.py
lines 119-120 applied to the three simulated arrays. -/
noncomputable def sim_still_infected_list (sched : List (ℤ × ℚ)) (days : List ℤ)
    (mortality : ℝ) (days_to_recovery : ℚ) : List ℝ :=
  still_infected_calc (sim_confirmed_list sched days)
    (sim_deaths_list sched days mortality days_to_recovery)
    (sim_recovered_list sched days mortality days_to_recovery)

/-- The state of a `CDataTimeSeriesCollection` (covid_doc.py:315-365). -/
structure CDataTimeSeriesCollection where
  country_list : List String
  data_collection : List CDataTimeSeries
deriving DecidableEq, Repr

/-- Embedding of `CDataTimeSeriesCollection._get_data_from_country_name`
(covid_doc.py:345-349): scan `data_collection` in order, return the first
record whose `country` equals the queried name, and `None` when there is
none. -/
def get_data_from_country_name (coll : CDataTimeSeriesCollection)
    (c_name : String) : Option CDataTimeSeries :=
  coll.data_collection.find? (fun ds => decide (ds.country = c_name))

/-- Embedding of
`CDataTimeSeriesCollection.add_data_time_series_to_collection`
(covid_doc.py:351-353): append the record's country to `country_list` and
the record to `data_collection`; no uniqueness check. -/
def add_data_time_series_to_collection (coll : CDataTimeSeriesCollection)
    (ds : CDataTimeSeries) : CDataTimeSeriesCollection :=
  { country_list := coll.country_list ++ [ds.country]
    data_collection := coll.data_collection ++ [ds] }

/-- Assignment `dt_dict[k] = v` on an insertion-ordered Python dict: an
existing key keeps its position and gets the new value, a new key is
appended. -/
def dict_insert (l : List (String × ℝ)) (k : String) (v : ℝ) : List (String × ℝ) :=
  if l.any (fun p => decide (p.1 = k)) then
    l.map (fun p => if p.1 = k then (k, v) else p)
  else l ++ [(k, v)]

/-- Stable-sort of the dict items descending by value:
`sorted(dt_dict.items(), key=lambda kv: kv[1], reverse=True)`
(covid_doc.py:363). -/
noncomputable def rank_sort (l : List (String × ℝ)) : List (String × ℝ) :=
  @List.insertionSort (String × ℝ) (fun a b => b.2 ≤ a.2)
    (fun a b => Real.decidableLE b.2 a.2) l

/-- Embedding of
`CDataTimeSeriesCollection._get_actual_doubling_time_for_date`
(covid_doc.py:355-365): build `dt_dict[ds.country] =
ds._calc_doubling_time_on_date(date=date, average_interval_days=1)` for
every record — note the literal `1`: the method's own
`average_interval_days` parameter is not forwarded — then sort the items
descending by value.  The unused parameter is kept to mirror the source
signature. -/
noncomputable def get_actual_doubling_time_for_date
    (coll : CDataTimeSeriesCollection) (date : Option ℤ)
    (average_interval_days : ℕ) : List (String × ℝ) :=
  rank_sort
    (coll.data_collection.foldl
      (fun acc ds => dict_insert acc ds.country (calc_doubling_time_on_date ds date 1))
      [])

/-! ### Helper lemmas -/

theorem first_index_geq_lt_length {d : ℤ} :
    ∀ {l : List ℤ} {i : ℕ}, first_index_geq d l = some i → i < l.length := by
  intro l
  induction l with
  | nil => intro i h; simp [first_index_geq] at h
  | cons x xs ih =>
    intro i h
    by_cases hx : d ≤ x
    · rw [first_index_geq, if_pos hx] at h
      have : (0 : ℕ) = i := Option.some.inj h
      simp [← this]
    · rw [first_index_geq, if_neg hx] at h
      obtain ⟨j, hj, rfl⟩ := Option.map_eq_some'.mp h
      have := ih hj
      simpa [Nat.succ_lt_succ_iff] using this

theorem first_index_geq_eq_some_of_least {d : ℤ} :
    ∀ (l : List ℤ) (i : ℕ), i < l.length → d ≤ l.getD i 0 →
      (∀ j, j < i → l.getD j 0 < d) → first_index_geq d l = some i := by
  intro l
  induction l with
  | nil => intro i h; simp at h
  | cons x xs ih =>
    intro i hi hgeq hlt
    cases i with
    | zero =>
      have hx : d ≤ x := by simpa using hgeq
      rw [first_index_geq, if_pos hx]
    | succ i =>
      have hx : ¬ d ≤ x := by
        have := hlt 0 (Nat.succ_pos i)
        simpa using not_le_of_lt this
      have hrec := ih i (by simpa [Nat.succ_lt_succ_iff] using hi)
        (by simpa using hgeq)
        (fun j hj => by
          have := hlt (j + 1) (by omega)
          simpa using this)
      rw [first_index_geq, if_neg hx, hrec]
      rfl

theorem first_index_geq_eq_none_of_all {d : ℤ} :
    ∀ (l : List ℤ), (∀ x ∈ l, x < d) → first_index_geq d l = none := by
  intro l
  induction l with
  | nil => intro _; simp [first_index_geq]
  | cons x xs ih =>
    intro h
    have hx : ¬ d ≤ x := not_le_of_lt (h x (List.mem_cons_self x xs))
    have := ih (fun y hy => h y (List.mem_cons_of_mem x hy))
    simp [first_index_geq, hx, this]

theorem first_index_geq_isSome_of_mem {d x : ℤ} {l : List ℤ}
    (hmem : x ∈ l) (hx : d ≤ x) : (first_index_geq d l).isSome := by
  induction l with
  | nil => simp at hmem
  | cons y ys ih =>
    by_cases hy : d ≤ y
    · simp [first_index_geq, hy]
    · rcases List.mem_cons.mp hmem with h | h
      · exact absurd (h ▸ hx) hy
      · have hs := ih h
        rw [first_index_geq, if_neg hy]
        obtain ⟨i, hi⟩ := Option.isSome_iff_exists.mp hs
        simp [hi]

theorem list_find_eq_some_of_least {α : Type} (p : α → Bool) (dflt : α) :
    ∀ (l : List α) (i : ℕ), i < l.length → p (l.getD i dflt) = true →
      (∀ j, j < i → p (l.getD j dflt) = false) →
      l.find? p = some (l.getD i dflt) := by
  intro l
  induction l with
  | nil => intro i h; simp at h
  | cons x xs ih =>
    intro i hi hp hlt
    cases i with
    | zero =>
      have hx : p x = true := by simpa using hp
      simpa using List.find?_cons_of_pos xs hx
    | succ i =>
      have hx : p x = false := by simpa using hlt 0 (Nat.succ_pos i)
      have hrec := ih i (by simpa [Nat.succ_lt_succ_iff] using hi)
        (by simpa using hp)
        (fun j hj => by simpa using hlt (j + 1) (by omega))
      rw [List.find?_cons_of_neg xs (by simp [hx])]
      simpa using hrec

theorem list_find_append_left {α : Type} (p : α → Bool) {l : List α}
    (l' : List α) {r : α} (h : l.find? p = some r) :
    (l ++ l').find? p = some r := by
  induction l with
  | nil => simp [List.find?] at h
  | cons x xs ih =>
    by_cases hx : p x
    · simp [List.find?, hx] at h ⊢; exact h
    · simp only [List.find?, hx] at h
      simpa [List.find?, hx] using ih h

theorem still_infected_calc_length {α : Type} [LinearOrderedRing α]
    (c d r : List α) :
    (still_infected_calc c d r).length = min (min c.length d.length) r.length := by
  simp [still_infected_calc]

theorem still_infected_calc_cons {α : Type} [LinearOrderedRing α]
    (a b e : α) (c d r : List α) :
    still_infected_calc (a :: c) (b :: d) (e :: r)
      = (if a - b - e < 0 then 0 else a - b - e) :: still_infected_calc c d r := rfl

theorem still_infected_calc_getD {α : Type} [LinearOrderedRing α] :
    ∀ (c d r : List α) (i : ℕ), i < (still_infected_calc c d r).length →
      (still_infected_calc c d r).getD i 0
        = max 0 (c.getD i 0 - d.getD i 0 - r.getD i 0) := by
  intro c
  induction c with
  | nil => intro d r i h; simp [still_infected_calc] at h
  | cons a c ih =>
    intro d r i h
    cases d with
    | nil => simp [still_infected_calc] at h
    | cons b d =>
      cases r with
      | nil => simp [still_infected_calc] at h
      | cons e r =>
        rw [still_infected_calc_cons] at h ⊢
        cases i with
        | zero =>
          simp only [List.getD_cons_zero]
          rcases lt_or_le (a - b - e) 0 with hneg | hpos
          · rw [if_pos hneg, max_eq_left (le_of_lt hneg)]
          · rw [if_neg (not_lt.mpr hpos), max_eq_right hpos]
        | succ i =>
          have h' : i < (still_infected_calc c d r).length := by
            simpa [Nat.succ_lt_succ_iff] using h
          simpa [List.getD_cons_succ] using ih d r i h'

theorem np_round_le_floor_add_one (q : ℚ) : np_round q ≤ ⌊q⌋ + 1 := by
  unfold np_round
  split_ifs <;> omega

theorem np_round_nonneg {q : ℚ} (h : 0 ≤ q) : 0 ≤ np_round q := by
  have hf : (0 : ℤ) ≤ ⌊q⌋ := Int.floor_nonneg.mpr h
  unfold np_round
  split_ifs <;> omega

/-! ### Concrete fixtures used by witnesses and counterexamples -/

/-- A data row for country Y with a single count. -/
def rowY : CsvRow := ⟨"", "Y", [3]⟩

/-- A csv file with one header date and no row for country X. -/
def cfNoMatch : CsvFile := ⟨[0], [rowY]⟩

/-- Confirmed file: one header date, country X with count 0. -/
def cfC2 : CsvFile := ⟨[0], [⟨"", "X", [0]⟩]⟩

/-- Deaths file: country X with count 0. -/
def dfC2 : CsvFile := ⟨[0], [⟨"", "X", [0]⟩]⟩

/-- Recovered file: country X with count 5 (more recovered than confirmed,
as happens with noisy source data). -/
def rfC2 : CsvFile := ⟨[0], [⟨"", "X", [5]⟩]⟩

/-- Confirmed file with a matching row for country X. -/
def cfW : CsvFile := ⟨[0], [⟨"", "X", [4]⟩]⟩

/-- Deaths file with a matching row for country X. -/
def dfW : CsvFile := ⟨[0], [⟨"", "X", [1]⟩]⟩

/-- Recovered file with a matching row for country X. -/
def rfW : CsvFile := ⟨[0], [⟨"", "X", [2]⟩]⟩

/-- A record whose confirmed counts grow from 1 to 2 to 8 over days
0, 1, 2. -/
def rec0 : CDataTimeSeries := ⟨"X", [0, 1, 2], [1, 2, 8], [0, 0, 0], [0, 0, 0], [1, 2, 8]⟩

/-- A collection holding the single record rec0. -/
def coll0 : CDataTimeSeriesCollection := ⟨["X"], [rec0]⟩

/-- A one-entry doubling-time schedule: doubling time 3 up to date 5. -/
def sched0 : List (ℤ × ℚ) := [(5, 3)]

/-- A four-day date axis for the simulator fixtures. -/
def days0 : List ℤ := [0, 1, 2, 3]

theorem np_round_le_of_le {q : ℚ} {t : ℤ} (h : q ≤ (t : ℚ)) : np_round q ≤ t := by
  have hceil : ⌈q⌉ ≤ t := Int.ceil_le.mpr h
  by_cases hint : q - (⌊q⌋ : ℚ) < 1 / 2
  · have heq : np_round q = ⌊q⌋ := by unfold np_round; rw [if_pos hint]
    have hfc : ⌊q⌋ ≤ ⌈q⌉ := Int.floor_le_ceil q
    omega
  · have hpos : (⌊q⌋ : ℚ) < q := by
      have := le_of_not_lt hint
      linarith
    have hceil_ge : ⌊q⌋ + 1 ≤ ⌈q⌉ := by
      have h1 : (⌊q⌋ : ℚ) < ((⌈q⌉ : ℤ) : ℚ) := lt_of_lt_of_le hpos (Int.le_ceil q)
      have h2 : ⌊q⌋ < ⌈q⌉ := by exact_mod_cast h1
      omega
    have := np_round_le_floor_add_one q
    omega

/-! ### Claim theorems -/

/-- C1 (amended). After construction the five sequences are index-aligned
for simulated records (all have length len(days)), and for real-data
records whenever each source file contributes a selected row with exactly
one count per header date of the confirmed file.  (As stated the claim is
false: with no matching row the numeric series are empty while days keeps
the header dates — see the counterexample.) -/
theorem record_series_lengths :
    (∀ (sched : List (ℤ × ℚ)) (days : List ℤ) (m : ℝ) (dtr : ℚ),
      days ≠ [] →
      (sim_confirmed_list sched days).length = days.length
      ∧ (sim_deaths_list sched days m dtr).length = days.length
      ∧ (sim_recovered_list sched days m dtr).length = days.length
      ∧ (sim_still_infected_list sched days m dtr).length = days.length)
  ∧ (∀ (country : String) (cf df rf : CsvFile),
      (parse_csv_data country cf.rows).length = cf.headerDates.length →
      (parse_csv_data country df.rows).length = cf.headerDates.length →
      (parse_csv_data country rf.rows).length = cf.headerDates.length →
      (mk_real_record country cf df rf).days.length = cf.headerDates.length
      ∧ (mk_real_record country cf df rf).n_confirmed.length = cf.headerDates.length
      ∧ (mk_real_record country cf df rf).n_deaths.length = cf.headerDates.length
      ∧ (mk_real_record country cf df rf).n_recovered.length = cf.headerDates.length
      ∧ (mk_real_record country cf df rf).n_still_infected.length = cf.headerDates.length) := by
  constructor
  · intro sched days m dtr _
    refine ⟨by simp [sim_confirmed_list], by simp [sim_deaths_list],
      by simp [sim_recovered_list], ?_⟩
    rw [sim_still_infected_list, still_infected_calc_length]
    simp [sim_confirmed_list, sim_deaths_list, sim_recovered_list]
  · intro country cf df rf h1 h2 h3
    refine ⟨by simp [mk_real_record], by simpa [mk_real_record] using h1,
      by simpa [mk_real_record] using h2, by simpa [mk_real_record] using h3, ?_⟩
    show (still_infected_calc (parse_csv_data country cf.rows)
      (parse_csv_data country df.rows) (parse_csv_data country rf.rows)).length
        = cf.headerDates.length
    rw [still_infected_calc_length, h1, h2, h3]
    simp

/-- C1 counterexample: requesting country X from a file whose only row
belongs to country Y gives a record with one header date but an empty
confirmed series, so len(days) differs from len(confirmed). -/
theorem record_series_lengths_cx :
    (mk_real_record "X" cfNoMatch cfNoMatch cfNoMatch).days.length = 1
  ∧ (mk_real_record "X" cfNoMatch cfNoMatch cfNoMatch).n_confirmed.length = 0
  ∧ (mk_real_record "X" cfNoMatch cfNoMatch cfNoMatch).days.length
      ≠ (mk_real_record "X" cfNoMatch cfNoMatch cfNoMatch).n_confirmed.length := by
  decide

/-- C1 witness: the amended statement applied to a concrete well-formed
set of source files. -/
theorem record_series_lengths_witness :
    (mk_real_record "X" cfW dfW rfW).days.length = cfW.headerDates.length
  ∧ (mk_real_record "X" cfW dfW rfW).n_confirmed.length = cfW.headerDates.length
  ∧ (mk_real_record "X" cfW dfW rfW).n_deaths.length = cfW.headerDates.length
  ∧ (mk_real_record "X" cfW dfW rfW).n_recovered.length = cfW.headerDates.length
  ∧ (mk_real_record "X" cfW dfW rfW).n_still_infected.length = cfW.headerDates.length :=
  record_series_lengths.2 "X" cfW dfW rfW (by decide) (by decide) (by decide)

/-- C2 (amended). For records built by covid_doc.py — real-data or
simulated — every still-infected entry equals
max(0, confirmed - deaths - recovered) and is non-negative.  (As stated
over every record the claim is false: the analyse_data.py variant stores
the raw difference unclamped — see the counterexample.) -/
theorem still_infected_clamp_spec :
    (∀ (country : String) (cf df rf : CsvFile) (i : ℕ),
      i < (mk_real_record country cf df rf).n_still_infected.length →
      (mk_real_record country cf df rf).n_still_infected.getD i 0
        = max 0 ((mk_real_record country cf df rf).n_confirmed.getD i 0
            - (mk_real_record country cf df rf).n_deaths.getD i 0
            - (mk_real_record country cf df rf).n_recovered.getD i 0)
      ∧ 0 ≤ (mk_real_record country cf df rf).n_still_infected.getD i 0)
  ∧ (∀ (sched : List (ℤ × ℚ)) (days : List ℤ) (m : ℝ) (dtr : ℚ) (i : ℕ),
      i < (sim_still_infected_list sched days m dtr).length →
      (sim_still_infected_list sched days m dtr).getD i 0
        = max 0 ((sim_confirmed_list sched days).getD i 0
            - (sim_deaths_list sched days m dtr).getD i 0
            - (sim_recovered_list sched days m dtr).getD i 0)
      ∧ 0 ≤ (sim_still_infected_list sched days m dtr).getD i 0) := by
  constructor
  · intro country cf df rf i hi
    have h := still_infected_calc_getD (parse_csv_data country cf.rows)
      (parse_csv_data country df.rows) (parse_csv_data country rf.rows) i hi
    refine ⟨h, ?_⟩
    rw [show (mk_real_record country cf df rf).n_still_infected
      = still_infected_calc (parse_csv_data country cf.rows)
          (parse_csv_data country df.rows) (parse_csv_data country rf.rows) from rfl, h]
    exact le_max_left 0 _
  · intro sched days m dtr i hi
    have h := still_infected_calc_getD (sim_confirmed_list sched days)
      (sim_deaths_list sched days m dtr) (sim_recovered_list sched days m dtr) i hi
    refine ⟨h, ?_⟩
    rw [show sim_still_infected_list sched days m dtr
      = still_infected_calc (sim_confirmed_list sched days)
          (sim_deaths_list sched days m dtr) (sim_recovered_list sched days m dtr) from rfl, h]
    exact le_max_left 0 _

/-- C2 counterexample: the analyse_data.py construction at a row set with
recovered greater than confirmed stores a negative still-infected value,
refuting the claim for that record. -/
theorem still_infected_clamp_cx :
    (mk_record_analyse "X" cfC2 dfC2 rfC2).n_still_infected.getD 0 0 = -5
  ∧ ¬ ((mk_record_analyse "X" cfC2 dfC2 rfC2).n_still_infected.getD 0 0
      = max 0 ((mk_record_analyse "X" cfC2 dfC2 rfC2).n_confirmed.getD 0 0
          - (mk_record_analyse "X" cfC2 dfC2 rfC2).n_deaths.getD 0 0
          - (mk_record_analyse "X" cfC2 dfC2 rfC2).n_recovered.getD 0 0))
  ∧ (mk_record_analyse "X" cfC2 dfC2 rfC2).n_still_infected.getD 0 0 < 0 := by
  decide

/-- C2 witness: the amended statement applied to the covid_doc builder on
the same data, where the raw difference is negative and the stored value
is the clamp. -/
theorem still_infected_clamp_witness :
    (mk_real_record "X" cfC2 dfC2 rfC2).n_still_infected.getD 0 0
      = max 0 ((mk_real_record "X" cfC2 dfC2 rfC2).n_confirmed.getD 0 0
          - (mk_real_record "X" cfC2 dfC2 rfC2).n_deaths.getD 0 0
          - (mk_real_record "X" cfC2 dfC2 rfC2).n_recovered.getD 0 0)
  ∧ 0 ≤ (mk_real_record "X" cfC2 dfC2 rfC2).n_still_infected.getD 0 0 :=
  still_infected_clamp_spec.1 "X" cfC2 dfC2 rfC2 0 (by decide)

/-- C8. When no data row of any source file has an empty sub-region field
together with the requested country, construction succeeds (the embedding
is total, matching the source, which raises only for unreadable files)
and all four numeric series are empty. -/
theorem no_matching_row_empty (country : String) (cf df rf : CsvFile)
    (h1 : ∀ r ∈ cf.rows, ¬ (r.country = country ∧ r.subRegion = ""))
    (h2 : ∀ r ∈ df.rows, ¬ (r.country = country ∧ r.subRegion = ""))
    (h3 : ∀ r ∈ rf.rows, ¬ (r.country = country ∧ r.subRegion = "")) :
    (mk_real_record country cf df rf).n_confirmed = []
  ∧ (mk_real_record country cf df rf).n_deaths = []
  ∧ (mk_real_record country cf df rf).n_recovered = []
  ∧ (mk_real_record country cf df rf).n_still_infected = [] := by
  have e1 : parse_csv_data country cf.rows = [] := by
    unfold parse_csv_data
    rw [List.find?_eq_none.mpr (fun r hr => by simp [h1 r hr])]
  have e2 : parse_csv_data country df.rows = [] := by
    unfold parse_csv_data
    rw [List.find?_eq_none.mpr (fun r hr => by simp [h2 r hr])]
  have e3 : parse_csv_data country rf.rows = [] := by
    unfold parse_csv_data
    rw [List.find?_eq_none.mpr (fun r hr => by simp [h3 r hr])]
  refine ⟨?_, ?_, ?_, ?_⟩ <;>
    simp [mk_real_record, e1, e2, e3, still_infected_calc]

/-- C8 witness: requesting country X from files whose only row belongs to
country Y yields empty numeric series. -/
theorem no_matching_row_empty_witness :
    (mk_real_record "X" cfNoMatch cfNoMatch cfNoMatch).n_confirmed = []
  ∧ (mk_real_record "X" cfNoMatch cfNoMatch cfNoMatch).n_deaths = []
  ∧ (mk_real_record "X" cfNoMatch cfNoMatch cfNoMatch).n_recovered = []
  ∧ (mk_real_record "X" cfNoMatch cfNoMatch cfNoMatch).n_still_infected = [] :=
  no_matching_row_empty "X" cfNoMatch cfNoMatch cfNoMatch
    (by decide) (by decide) (by decide)

/-- C6. Date-range index resolution: both bounds None gives
(0, len(days)); a given start date resolves to the first index whose date
is at least it, falling back to 0 when none exists; a given end date
resolves to the first index whose date is at least it, falling back to
len(days); the function is total (the source recovers the IndexError of
np.where with the logged fallback and never raises). -/
theorem time_range_indices_spec :
    (∀ days : List ℤ, get_time_range_indices days none none = (0, days.length))
  ∧ (∀ (days : List ℤ) (sd : ℤ) (e : Option ℤ) (i : ℕ),
      i < days.length → sd ≤ days.getD i 0 → (∀ j, j < i → days.getD j 0 < sd) →
      (get_time_range_indices days (some sd) e).1 = i)
  ∧ (∀ (days : List ℤ) (sd : ℤ) (e : Option ℤ),
      (∀ x ∈ days, x < sd) → (get_time_range_indices days (some sd) e).1 = 0)
  ∧ (∀ (days : List ℤ) (s : Option ℤ) (ed : ℤ) (i : ℕ),
      i < days.length → ed ≤ days.getD i 0 → (∀ j, j < i → days.getD j 0 < ed) →
      (get_time_range_indices days s (some ed)).2 = i)
  ∧ (∀ (days : List ℤ) (s : Option ℤ) (ed : ℤ),
      (∀ x ∈ days, x < ed) → (get_time_range_indices days s (some ed)).2 = days.length) := by
  refine ⟨?_, ?_, ?_, ?_, ?_⟩
  · intro days
    simp [get_time_range_indices]
  · intro days sd e i hi hgeq hlt
    have h := first_index_geq_eq_some_of_least days i hi hgeq hlt
    simp [get_time_range_indices, h]
  · intro days sd e h
    have hn := first_index_geq_eq_none_of_all days h
    simp [get_time_range_indices, hn]
  · intro days s ed i hi hgeq hlt
    have h := first_index_geq_eq_some_of_least days i hi hgeq hlt
    cases s <;> simp [get_time_range_indices, h]
  · intro days s ed h
    have hn := first_index_geq_eq_none_of_all days h
    cases s <;> simp [get_time_range_indices, hn]

/-- C6 witness: on days [0, 2, 4], start date 1 resolves to index 1 and
the out-of-range end date 5 falls back to len(days) = 3. -/
theorem time_range_indices_spec_witness :
    (get_time_range_indices [0, 2, 4] (some 1) (some 5)).1 = 1
  ∧ (get_time_range_indices [0, 2, 4] (some 1) (some 5)).2 = 3 := by
  constructor
  · exact time_range_indices_spec.2.1 [0, 2, 4] 1 (some 5) 1 (by decide) (by decide)
      (fun j hj => by
        have : j = 0 := by omega
        subst this; decide)
  · exact time_range_indices_spec.2.2.2.2 [0, 2, 4] (some 1) 5 (by decide)

/-- C9. Collection lookup scans data_collection in insertion order and
returns the first record whose country equals the queried name; it
returns None (rather than raising) when no record matches; append
performs no uniqueness check, so after appending a record with a
duplicate name the lookup still returns the earlier record. -/
theorem lookup_spec :
    (∀ (coll : CDataTimeSeriesCollection) (name : String) (i : ℕ),
      i < coll.data_collection.length →
      (coll.data_collection.getD i default).country = name →
      (∀ j, j < i → (coll.data_collection.getD j default).country ≠ name) →
      get_data_from_country_name coll name = some (coll.data_collection.getD i default))
  ∧ (∀ (coll : CDataTimeSeriesCollection) (name : String),
      (∀ ds ∈ coll.data_collection, ds.country ≠ name) →
      get_data_from_country_name coll name = none)
  ∧ (∀ (coll : CDataTimeSeriesCollection) (ds r : CDataTimeSeries),
      get_data_from_country_name coll ds.country = some r →
      get_data_from_country_name (add_data_time_series_to_collection coll ds) ds.country
        = some r) := by
  refine ⟨?_, ?_, ?_⟩
  · intro coll name i hi hname hleast
    have h := list_find_eq_some_of_least (fun ds => decide (ds.country = name)) default
      coll.data_collection i hi (by simpa using hname)
      (fun j hj => by simpa using hleast j hj)
    exact h
  · intro coll name h
    exact List.find?_eq_none.mpr (fun ds hds => by simpa using h ds hds)
  · intro coll ds r h
    unfold get_data_from_country_name at h
    unfold get_data_from_country_name add_data_time_series_to_collection
    exact list_find_append_left _ [ds] h

/-- Record fixture for the duplicate-append scenario. -/
def recA : CDataTimeSeries := ⟨"A", [0], [1], [0], [0], [1]⟩

/-- A second record with the same country name as recA. -/
def recA2 : CDataTimeSeries := ⟨"A", [0], [2], [0], [0], [2]⟩

/-- A collection holding recA only. -/
def collA : CDataTimeSeriesCollection := ⟨["A"], [recA]⟩

/-- C9 witness: on a concrete collection, lookup finds the first record,
and after appending a duplicate-named record it still returns the earlier
one. -/
theorem lookup_spec_witness :
    get_data_from_country_name collA "A" = some recA
  ∧ get_data_from_country_name (add_data_time_series_to_collection collA recA2) "A"
      = some recA := by
  have h0 : get_data_from_country_name collA "A"
      = some (collA.data_collection.getD 0 default) :=
    lookup_spec.1 collA "A" 0 (by decide) (by decide) (fun j hj => absurd hj (by omega))
  have h0' : get_data_from_country_name collA "A" = some recA := h0.trans (by decide)
  refine ⟨h0', ?_⟩
  have h1 := lookup_spec.2.2 collA recA2 recA (by simpa using h0')
  simpa using h1

/-- C10. With n_confirmed as long as the non-empty days axis, a query
date d between the first and last day and a window w of at least one day,
both indices produced by date-range resolution (and used by the
doubling-time computation to index n_confirmed) are strictly below
len(days); and the precondition that d not exceed the last day is needed:
an end date beyond every day resolves, via the fallback, to the
out-of-bounds index len(days). -/
theorem indices_in_bounds :
    (∀ (rec : CDataTimeSeries) (d : ℤ) (w : ℕ),
      rec.n_confirmed.length = rec.days.length → rec.days ≠ [] → 1 ≤ w →
      rec.days.getD 0 0 ≤ d → d ≤ rec.days.getLastD 0 →
      (get_time_range_indices rec.days (some (d - (w : ℤ))) (some d)).1 < rec.days.length
      ∧ (get_time_range_indices rec.days (some (d - (w : ℤ))) (some d)).2 < rec.days.length)
  ∧ (∀ (days : List ℤ) (s : Option ℤ) (d : ℤ),
      (∀ x ∈ days, x < d) →
      (get_time_range_indices days s (some d)).2 = days.length) := by
  constructor
  · intro rec d w _ hne _ _ hlast
    have hmem : rec.days.getLastD 0 ∈ rec.days := by
      rw [List.getLastD_eq_getLast?, List.getLast?_eq_getLast rec.days hne]
      exact List.getLast_mem hne
    constructor
    · cases h : first_index_geq (d - (w : ℤ)) rec.days with
      | none =>
        have : (get_time_range_indices rec.days (some (d - (w : ℤ))) (some d)).1 = 0 := by
          simp [get_time_range_indices, h]
        rw [this]
        exact List.length_pos.mpr hne
      | some i =>
        have : (get_time_range_indices rec.days (some (d - (w : ℤ))) (some d)).1 = i := by
          simp [get_time_range_indices, h]
        rw [this]
        exact first_index_geq_lt_length h
    · have hsome := first_index_geq_isSome_of_mem hmem hlast
      obtain ⟨i, hi⟩ := Option.isSome_iff_exists.mp hsome
      have : (get_time_range_indices rec.days (some (d - (w : ℤ))) (some d)).2 = i := by
        simp [get_time_range_indices, hi]
      rw [this]
      exact first_index_geq_lt_length hi
  · intro days s d h
    have hn := first_index_geq_eq_none_of_all days h
    cases s <;> simp [get_time_range_indices, hn]

/-- C10 witness: the record rec0 with query date 2 and window 1 yields
two indices strictly below len(days) = 3. -/
theorem indices_in_bounds_witness :
    (get_time_range_indices rec0.days (some ((2 : ℤ) - ((1 : ℕ) : ℤ))) (some 2)).1
      < rec0.days.length
  ∧ (get_time_range_indices rec0.days (some ((2 : ℤ) - ((1 : ℕ) : ℤ))) (some 2)).2
      < rec0.days.length :=
  indices_in_bounds.1 rec0 2 1 (by decide) (by decide) (by decide) (by decide) (by decide)

/-- C4. Simulated records seed confirmed[0] = 1 with recovered[0] and
deaths[0] zero, and for every in-range day index t of at least 1 the
recurrence multiplies the previous value by exp(ln 2 / T), where T is the
schedule value of the first schedule date at least the calendar date of
day t (scanning the schedule in insertion order) and the last schedule
entry's value when day t's date exceeds every schedule date. -/
theorem sim_seed_and_step (sched : List (ℤ × ℚ)) (days : List ℤ) (m : ℝ) (dtr : ℚ) :
    sim_confirmed sched days 0 = 1
  ∧ sim_deaths sched days m dtr 0 = 0
  ∧ sim_recovered sched days m dtr 0 = 0
  ∧ (∀ t : ℕ, 1 ≤ t → t < days.length →
      sim_confirmed sched days t
        = sim_confirmed sched days (t - 1)
          * Real.exp (Real.log 2
              / ((get_doubling_time_from_dict sched (days.getD t 0) : ℚ) : ℝ)))
  ∧ (∀ (d : ℤ) (i : ℕ), i < sched.length → d ≤ (sched.getD i (0, 0)).1 →
      (∀ j, j < i → (sched.getD j (0, 0)).1 < d) →
      get_doubling_time_from_dict sched d = (sched.getD i (0, 0)).2)
  ∧ (∀ d : ℤ, sched ≠ [] → (∀ p ∈ sched, p.1 < d) →
      get_doubling_time_from_dict sched d = (sched.getLastD (0, 0)).2) := by
  refine ⟨rfl, ?_, ?_, ?_, ?_, ?_⟩
  · simp [sim_deaths]
  · simp [sim_recovered]
  · intro t ht _
    cases t with
    | zero => omega
    | succ s =>
      simp only [Nat.add_sub_cancel]
      rfl
  · intro d i hi hgeq hleast
    have h := list_find_eq_some_of_least (fun p => decide (d ≤ p.1)) (0, 0)
      sched i hi (by simpa using hgeq)
      (fun j hj => by
        simp only [decide_eq_false_iff_not, not_le]
        exact hleast j hj)
    unfold get_doubling_time_from_dict
    rw [h]
  · intro d _ hall
    have h : sched.find? (fun p => decide (d ≤ p.1)) = none :=
      List.find?_eq_none.mpr (fun p hp => by
        simp only [decide_eq_true_eq, not_le]
        exact hall p hp)
    unfold get_doubling_time_from_dict
    rw [h]

/-- C4 witness: on the concrete schedule sched0 and axis days0 the step
recurrence holds at day 1, and the schedule lookup at date 1 returns the
first entry's doubling time 3. -/
theorem sim_seed_and_step_witness :
    sim_confirmed sched0 days0 1
      = sim_confirmed sched0 days0 0
        * Real.exp (Real.log 2
            / ((get_doubling_time_from_dict sched0 (days0.getD 1 0) : ℚ) : ℝ))
  ∧ get_doubling_time_from_dict sched0 (1 : ℤ) = 3 := by
  constructor
  · exact (sim_seed_and_step sched0 days0 0 0).2.2.2.1 1 (by norm_num)
      (by norm_num [days0])
  · have h := (sim_seed_and_step sched0 days0 0 0).2.2.2.2.1 1 0 (by decide) (by decide)
      (fun j hj => absurd hj (by omega))
    simpa using h

/-- C5 (amended). In the simulator the outcome-delay branch triggers when
the day index t reaches the unrounded days_to_recovery (equivalently its
ceiling), not its nearest-integer rounding as the claim states; at
triggered indices deaths and recovered read confirmed at offset
int(np.round(days_to_recovery)) back (a valid index: the rounded offset
never exceeds t there) and are scaled by mortality, resp. 1 - mortality;
at earlier indices, and at index 0, both are zero. -/
theorem sim_outcome_delay (sched : List (ℤ × ℚ)) (days : List ℤ) (m : ℝ) (dtr : ℚ)
    (t : ℕ) (hdtr : 0 ≤ dtr) :
    ((1 ≤ t ∧ dtr ≤ (t : ℚ)) ↔ (1 ≤ t ∧ ⌈dtr⌉ ≤ (t : ℤ)))
  ∧ ((1 ≤ t ∧ dtr ≤ (t : ℚ)) →
      (np_round dtr).toNat ≤ t
      ∧ sim_deaths sched days m dtr t
          = sim_confirmed sched days (t - (np_round dtr).toNat) * m
      ∧ sim_recovered sched days m dtr t
          = sim_confirmed sched days (t - (np_round dtr).toNat) * (1 - m))
  ∧ (((t : ℚ) < dtr ∨ t = 0) →
      sim_deaths sched days m dtr t = 0 ∧ sim_recovered sched days m dtr t = 0) := by
  have hcast : ((t : ℤ) : ℚ) = (t : ℚ) := by push_cast; rfl
  refine ⟨?_, ?_, ?_⟩
  · constructor
    · rintro ⟨h1, h2⟩
      exact ⟨h1, Int.ceil_le.mpr (by rw [hcast]; exact h2)⟩
    · rintro ⟨h1, h2⟩
      refine ⟨h1, ?_⟩
      calc dtr ≤ (⌈dtr⌉ : ℚ) := Int.le_ceil dtr
        _ ≤ ((t : ℤ) : ℚ) := by exact_mod_cast h2
        _ = (t : ℚ) := hcast
  · intro h
    have hle : np_round dtr ≤ (t : ℤ) := np_round_le_of_le (by rw [hcast]; exact h.2)
    refine ⟨Int.toNat_le.mpr hle, ?_, ?_⟩
    · unfold sim_deaths
      rw [if_pos h]
    · unfold sim_recovered
      rw [if_pos h]
  · intro h
    have hneg : ¬ (1 ≤ t ∧ dtr ≤ (t : ℚ)) := by
      rintro ⟨h1, h2⟩
      rcases h with hlt | hz
      · exact absurd h2 (not_le_of_lt hlt)
      · omega
    constructor
    · unfold sim_deaths
      rw [if_neg hneg]
    · unfold sim_recovered
      rw [if_neg hneg]

/-- C5 counterexample: with days_to_recovery = 2.4 the nearest-integer
rounding is 2, and the claim asserts deaths[2] = confirmed[0] * mortality
= 1/2; the code leaves deaths[2] = 0 because the trigger compares against
the unrounded 2.4. -/
theorem sim_outcome_delay_cx :
    np_round (12 / 5 : ℚ) = 2
  ∧ sim_deaths sched0 days0 (1 / 2) (12 / 5) 2 = 0
  ∧ sim_confirmed sched0 days0 (2 - (np_round (12 / 5 : ℚ)).toNat) * (1 / 2) ≠ 0 := by
  have hfl : ⌊(12 / 5 : ℚ)⌋ = 2 := by
    rw [Int.floor_eq_iff] <;> norm_num
  have hr : np_round (12 / 5 : ℚ) = 2 := by
    unfold np_round
    rw [hfl]
    norm_num
  refine ⟨hr, ?_, ?_⟩
  · unfold sim_deaths
    rw [if_neg]
    rintro ⟨-, h2⟩
    norm_num at h2
  · rw [hr]
    norm_num [sim_confirmed]

/-- C5 witness: with the integral days_to_recovery = 2 the amended
statement applies at day 3 and gives the delayed outcome values. -/
theorem sim_outcome_delay_witness :
    sim_deaths sched0 days0 (1 / 2) 2 3
      = sim_confirmed sched0 days0 (3 - (np_round (2 : ℚ)).toNat) * (1 / 2)
  ∧ sim_recovered sched0 days0 (1 / 2) 2 3
      = sim_confirmed sched0 days0 (3 - (np_round (2 : ℚ)).toNat) * (1 - 1 / 2) := by
  have h := (sim_outcome_delay sched0 days0 (1 / 2) 2 3 (by norm_num)).2.1
    ⟨by norm_num, by norm_num⟩
  exact ⟨h.2.1, h.2.2⟩

/-- C7. For a date present in the day axis, a window w of at least one
day whose look-back start does not precede the first day, and with i2 the
first index whose date is at least the query date and i1 the first index
whose date is at least the query date minus w days, the single-date
doubling time equals ln 2 / ln r with
r = 1 + (confirmed[i2] / confirmed[i1] - 1) / w. -/
theorem doubling_time_on_date_formula (rec : CDataTimeSeries) (date : ℤ) (w : ℕ)
    (hw : 1 ≤ w) (hmem : date ∈ rec.days)
    (hlow : rec.days.getD 0 0 ≤ date - (w : ℤ))
    (i1 i2 : ℕ)
    (h1len : i1 < rec.days.length) (h1geq : date - (w : ℤ) ≤ rec.days.getD i1 0)
    (h1least : ∀ j, j < i1 → rec.days.getD j 0 < date - (w : ℤ))
    (h2len : i2 < rec.days.length) (h2geq : date ≤ rec.days.getD i2 0)
    (h2least : ∀ j, j < i2 → rec.days.getD j 0 < date) :
    calc_doubling_time_on_date rec (some date) w
      = Real.log 2 / Real.log
          (((1 + (((rec.n_confirmed.getD i2 0 : ℤ) : ℚ)
              / ((rec.n_confirmed.getD i1 0 : ℤ) : ℚ) - 1) / (w : ℚ)) : ℚ) : ℝ) := by
  have hfig1 := first_index_geq_eq_some_of_least rec.days i1 h1len h1geq h1least
  have hfig2 := first_index_geq_eq_some_of_least rec.days i2 h2len h2geq h2least
  unfold calc_doubling_time_on_date daily_increase_rate resolve_date get_time_range_indices
  simp [hfig1, hfig2]

/-- C7 witness: on rec0 at date 2 with window 1 the indices are 1 and 2,
the rate is 1 + (8/2 - 1)/1 = 4 and the doubling time is ln 2 / ln 4. -/
theorem doubling_time_on_date_formula_witness :
    calc_doubling_time_on_date rec0 (some 2) 1 = Real.log 2 / Real.log 4 := by
  have h := doubling_time_on_date_formula rec0 2 1 (by norm_num) (by decide) (by decide)
    1 2 (by decide) (by decide)
    (fun j hj => by
      have : j = 0 := by omega
      subst this; decide)
    (by decide) (by decide)
    (fun j hj => by
      interval_cases j <;> decide)
  rw [h]
  norm_num [rec0]

/-- C3. The collection's ranking method passes the literal interval 1 to
every member's single-date doubling-time computation instead of its own
average_interval_days argument: on the concrete one-record collection
coll0 queried at date 2 with interval 2, the ranking carries the
interval-1 value ln 2 / ln 4, while the interval-2 value the claim
prescribes is the different number ln 2 / ln (9/2).  (The dictionary
variant's filtering and the descending sort are as the claim states; the
interval forwarding is the divergence.) -/
theorem ranking_ignores_interval :
    get_actual_doubling_time_for_date coll0 (some 2) 2
      = [("X", calc_doubling_time_on_date rec0 (some 2) 1)]
  ∧ calc_doubling_time_on_date rec0 (some 2) 1 = Real.log 2 / Real.log 4
  ∧ calc_doubling_time_on_date rec0 (some 2) 2 = Real.log 2 / Real.log (9 / 2)
  ∧ Real.log 2 / Real.log 4 ≠ Real.log 2 / Real.log (9 / 2) := by
  have hr1 : daily_increase_rate rec0 (some 2) 1 = 4 := by
    unfold daily_increase_rate resolve_date get_time_range_indices
    norm_num [rec0, first_index_geq]
  have hr2 : daily_increase_rate rec0 (some 2) 2 = 9 / 2 := by
    unfold daily_increase_rate resolve_date get_time_range_indices
    norm_num [rec0, first_index_geq]
  refine ⟨?_, ?_, ?_, ?_⟩
  · show rank_sort (dict_insert [] rec0.country (calc_doubling_time_on_date rec0 (some 2) 1))
      = [("X", calc_doubling_time_on_date rec0 (some 2) 1)]
    simp [dict_insert, rank_sort, List.insertionSort, List.orderedInsert, rec0]
  · unfold calc_doubling_time_on_date
    rw [hr1]
    norm_num
  · unfold calc_doubling_time_on_date
    rw [hr2]
    norm_num
  · have l2 : (0 : ℝ) < Real.log 2 := Real.log_pos (by norm_num)
    have l4 : (0 : ℝ) < Real.log 4 := Real.log_pos (by norm_num)
    have hlt : Real.log 4 < Real.log (9 / 2) := Real.log_lt_log (by norm_num) (by norm_num)
    have hdiv := div_lt_div_of_pos_left l2 l4 hlt
    exact ne_of_gt hdiv
